import Mathlib

/-!
Shallow embedding of the flow-path overlay core of `visualize.py`
(`visualize_max_flow`, lines 136-301), together with proofs of the
behavioural properties claimed for it.

Node identifiers are strings (company names); flow values and edge
weights are modelled as rationals.  The observable behaviour of
`visualize_max_flow` (which returns `None` in Python and acts through
drawing calls) is captured by the `VisOutcome` structure: the printed
error diagnostic, whether the degraded unhighlighted graph was drawn in
the early-return branches, the list of highlighted flow edges together
with their aggregated flow and drawn width, and the accumulated defect
count (`path_issues_count`).
-/

namespace Visualize

/-- The graph `G` built by `create_graph`: a directed graph with string
node identifiers and weighted edges.  As in `networkx.DiGraph`, a node
is a member of the graph when it was added explicitly or appears as an
endpoint of some edge. -/
structure Graph where
  nodes : List String
  edges : List ((String × String) × ℚ)
  deriving DecidableEq

/-- `node_name in G` (networkx node membership: explicit nodes plus all
edge endpoints). -/
def Graph.hasNode (G : Graph) (n : String) : Bool :=
  G.nodes.contains n || G.edges.any (fun e => e.1.1 == n || e.1.2 == n)

/-- `G.has_edge(u, v)` (line 230). -/
def Graph.hasEdge (G : Graph) (u v : String) : Bool :=
  G.edges.any (fun e => e.1.1 == u && e.1.2 == v)

/-- One element of the `flow_paths` list: a dictionary that may carry a
`path` entry (a node sequence) and a `flow` entry.  `none` models both
a missing key and an explicit `null` as seen by the validation reads
`path_info.get('path')` and `path_info.get('flow')` of lines 205-206,
where `dict.get` returns `None` in both cases.  The defaulted reads
`get('path', [])` and `get('flow', 0.0)` of lines 255-256 DO
distinguish a missing key (default applies) from an explicit null
(Python `None` comes back and the loop crashes on it); that
distinction is modelled separately by `PathDict` below. -/
structure PathInfo where
  path : Option (List String)
  flow : Option ℚ
  deriving DecidableEq

/-- The consecutive node pairs of a path, as walked by
`for j in range(len(path_nodes) - 1)` (line 228). -/
def segments : List String → List (String × String)
  | a :: b :: rest => (a, b) :: segments (b :: rest)
  | _ => []

/-- The four ways the per-record loop body (lines 204-234) can run for
one record: the two early `continue`s (empty or missing `path`, missing
`flow`), the whole-record discard on the first node absent from `G`,
and the normal segment walk keeping the segments that are edges of `G`
and counting one defect per segment that is not. -/
inductive RecordOutcome
  | skippedNoPath
  | skippedNoFlow
  | skippedMissingNode (n : String)
  | processed (validSegs : List (String × String)) (missingSegDefects : Nat)
  deriving DecidableEq

/-- The validation of one record, mirroring lines 205-234:
`path_info.get('path')` empty-or-missing check, `path_flow is None`
check, node-membership scan with break at the first missing node, and
the consecutive-pair walk filtered by `G.has_edge`. -/
def processRecord (G : Graph) (p : PathInfo) : RecordOutcome :=
  if (p.path.getD []).isEmpty then .skippedNoPath
  else if p.flow.isNone then .skippedNoFlow
  else
    match (p.path.getD []).find? (fun n => !(G.hasNode n)) with
    | some n => .skippedMissingNode n
    | none =>
        .processed ((segments (p.path.getD [])).filter (fun e => G.hasEdge e.1 e.2))
          (((segments (p.path.getD [])).filter (fun e => !(G.hasEdge e.1 e.2))).length)

/-- Whether the record was rejected by one of the two presence checks
(lines 208-215), before any node or edge validation. -/
def RecordOutcome.isEarlySkip : RecordOutcome → Bool
  | .skippedNoPath => true
  | .skippedNoFlow => true
  | _ => false

/-- Whether the record survived all checks and had its segments walked. -/
def RecordOutcome.isProcessed : RecordOutcome → Bool
  | .processed _ _ => true
  | _ => false

/-- The segments of one record that are added to `valid_flow_edges`
(line 231): empty unless the record reaches the segment walk. -/
def recordValidEdges (G : Graph) (p : PathInfo) : List (String × String) :=
  match processRecord G p with
  | .processed segs _ => segs
  | _ => []

/-- The number of `path_issues_count` increments contributed by one
record: 1 for each early skip or missing node (the node scan breaks at
the first missing node), and one per missing-edge segment otherwise. -/
def recordDefects (G : Graph) (p : PathInfo) : Nat :=
  match processRecord G p with
  | .processed _ m => m
  | _ => 1

/-- The final `path_issues_count` (lines 202-239). -/
def totalDefects (G : Graph) (paths : List PathInfo) : Nat :=
  (paths.map (recordDefects G)).sum

/-- `p_nodes[i] == u and p_nodes[i+1] == v` for some `i` (line 258):
the node sequence traverses the directed pair `(u, v)`. -/
def segMem (ns : List String) (u v : String) : Bool :=
  (segments ns).any (fun e => e.1 == u && e.2 == v)

/-- One step of the aggregation loop of lines 254-260: starting from
`max_flow_on_this_edge = 0.0`, every record of the original
`flow_paths` list whose `p_nodes` traverse `(u, v)` contributes
`max`-wise its `p_flow`.  On `PathInfo`, `p.flow.getD 0` matches
`path_info.get('flow', 0.0)` only for records without explicit nulls
(an absent key defaults to `0.0`); a present-but-null field instead
makes the Python loop raise `TypeError` — that error path is modelled
faithfully by `aggStepChecked` on `PathDict` below and decides C4. -/
def aggStep (u v : String) (acc : ℚ) (p : PathInfo) : ℚ :=
  if segMem (p.path.getD []) u v then max acc (p.flow.getD 0) else acc

/-- `max_flow_on_this_edge` computed for the pair `(u, v)`
(lines 253-260). -/
def aggFlow (paths : List PathInfo) (u v : String) : ℚ :=
  paths.foldl (aggStep u v) 0

/-- The drawn width of a highlighted flow edge,
`max(0.5, 1.0 + 5.0 * max_flow_on_this_edge)` (line 264). -/
def edgeWidth (f : ℚ) : ℚ := max (1 / 2) (1 + 5 * f)

/-- Strict code-point lexicographic order on character lists: the order
Python uses to compare the strings inside sorted tuples (line 247). -/
def clLt : List Char → List Char → Bool
  | _, [] => false
  | [], _ :: _ => true
  | a :: as, b :: bs => decide (a < b) || (decide (a = b) && clLt as bs)

/-- The (non-strict) lexicographic order on `(from, to)` pairs used by
`sorted(list(valid_flow_edges))` (line 247): Python sorts tuples of
strings lexicographically. -/
def edgeLe (e f : String × String) : Prop :=
  clLt e.1.data f.1.data = true ∨
    (e.1 = f.1 ∧ (clLt e.2.data f.2.data = true ∨ e.2 = f.2))

instance : DecidableRel edgeLe := fun e f =>
  inferInstanceAs (Decidable (clLt e.1.data f.1.data = true ∨
    (e.1 = f.1 ∧ (clLt e.2.data f.2.data = true ∨ e.2 = f.2))))

/-- `sorted_valid_flow_edges` (lines 201, 231, 247): the set
`valid_flow_edges` accumulated across all records, listed in sorted
order.  (`List.dedup` plays the role of the Python `set`; the order in
which the set is built is irrelevant after sorting.) -/
def sortedValidFlowEdges (G : Graph) (paths : List PathInfo) : List (String × String) :=
  List.insertionSort edgeLe ((paths.flatMap (recordValidEdges G)).dedup)

/-- The observable behaviour of one `visualize_max_flow` call.  The
Python function returns `None` on every control path; what
distinguishes its runs are the printed `ERROR` diagnostic, whether the
degraded unhighlighted graph of lines 153-159 / 164-170 was drawn, the
flow edges drawn with their aggregated flow and width (lines 247-269),
and the defect count. -/
structure VisOutcome where
  errorMsg : Option String
  degradedDrawn : Bool
  highlighted : List ((String × String) × ℚ × ℚ)
  defects : Nat
  deriving DecidableEq

/-- `visualize_max_flow(G, flow_paths, source, sink)` (lines 136-301).
The two early returns for a missing source or sink (lines 150-171)
print an `ERROR` line, draw the plain unhighlighted graph, and return;
otherwise every record is validated (lines 203-239), the valid flow
edges are sorted (line 247) and each is paired with its aggregated
flow and drawn width (lines 252-264). -/
def visualize_max_flow (G : Graph) (flow_paths : List PathInfo)
    (source sink : String) : VisOutcome :=
  if G.hasNode source = false then
    { errorMsg := some ("ERROR: Source node " ++ source ++
        " is not in the graph G. Cannot visualize max flow.")
      degradedDrawn := true
      highlighted := []
      defects := 0 }
  else if G.hasNode sink = false then
    { errorMsg := some ("ERROR: Sink node " ++ sink ++
        " is not in the graph G. Cannot visualize max flow.")
      degradedDrawn := true
      highlighted := []
      defects := 0 }
  else
    { errorMsg := none
      degradedDrawn := false
      highlighted := (sortedValidFlowEdges G flow_paths).map
        (fun e => (e, aggFlow flow_paths e.1 e.2, edgeWidth (aggFlow flow_paths e.1 e.2)))
      defects := totalDefects G flow_paths }

/-- The aggregate the specification attributes to a highlighted edge:
the maximum of the flow values of the validating records that traverse
the edge (taken as a `max`-fold from 0).  Stated from the claim's
words, for comparison with the code's `aggFlow`. -/
def aggFlowClaimed (G : Graph) (paths : List PathInfo) (u v : String) : ℚ :=
  ((paths.filter
      (fun p => (processRecord G p).isProcessed && segMem (p.path.getD []) u v)).map
    (fun p => p.flow.getD 0)).foldr max 0

/-- The code's aggregate written declaratively: the `max`-fold, from 0,
of the flows of all records (validating or not) that traverse the
edge, a missing flow contributing `0`. -/
def aggFlowAll (paths : List PathInfo) (u v : String) : ℚ :=
  ((paths.filter (fun p => segMem (p.path.getD []) u v)).map
    (fun p => p.flow.getD 0)).foldr max 0

/-! Order lemmas for the lexicographic comparison used by the sort. -/

lemma clLt_irrefl : ∀ l : List Char, clLt l l = false
  | [] => rfl
  | a :: as => by simp [clLt, clLt_irrefl as]

lemma clLt_asymm : ∀ {l₁ l₂ : List Char}, clLt l₁ l₂ = true → clLt l₂ l₁ = false
  | [], [] => by intro h; simp [clLt] at h
  | [], _ :: _ => by intro _; rfl
  | _ :: _, [] => by intro h; simp [clLt] at h
  | a :: as, b :: bs => by
    intro h
    simp only [clLt, Bool.or_eq_true, Bool.and_eq_true, decide_eq_true_eq] at h
    rw [Bool.eq_false_iff]
    intro hc
    simp only [clLt, Bool.or_eq_true, Bool.and_eq_true, decide_eq_true_eq] at hc
    rcases h with hlt | ⟨heq, hrec⟩
    · rcases hc with hlt' | ⟨heq', _⟩
      · exact absurd hlt' (lt_asymm hlt)
      · exact absurd hlt (heq' ▸ lt_irrefl b)
    · rcases hc with hlt' | ⟨heq', hrec'⟩
      · exact absurd hlt' (heq ▸ lt_irrefl a)
      · exact absurd hrec' (Bool.eq_false_iff.mp (clLt_asymm hrec))

lemma clLt_conn : ∀ {l₁ l₂ : List Char},
    clLt l₁ l₂ = false → clLt l₂ l₁ = false → l₁ = l₂
  | [], [] => by intro _ _; rfl
  | [], _ :: _ => by intro h _; simp [clLt] at h
  | _ :: _, [] => by intro _ h; simp [clLt] at h
  | a :: as, b :: bs => by
    intro h₁ h₂
    simp only [clLt, Bool.or_eq_false_iff, Bool.and_eq_false_iff,
      decide_eq_false_iff_not] at h₁ h₂
    obtain ⟨hab, h₁'⟩ := h₁
    obtain ⟨hba, h₂'⟩ := h₂
    have heq : a = b := le_antisymm (not_lt.mp hba) (not_lt.mp hab)
    subst heq
    rcases h₁' with hne | hr₁
    · exact absurd rfl hne
    · rcases h₂' with hne | hr₂
      · exact absurd rfl hne
      · rw [clLt_conn hr₁ hr₂]

lemma clLt_trans : ∀ {l₁ l₂ l₃ : List Char},
    clLt l₁ l₂ = true → clLt l₂ l₃ = true → clLt l₁ l₃ = true
  | [], [], _ => by intro h _; simp [clLt] at h
  | [], _ :: _, [] => by intro _ h; simp [clLt] at h
  | [], _ :: _, _ :: _ => by intro _ _; rfl
  | _ :: _, [], _ => by intro h _; simp [clLt] at h
  | _ :: _, _ :: _, [] => by intro _ h; simp [clLt] at h
  | a :: as, b :: bs, c :: cs => by
    intro h₁ h₂
    simp only [clLt, Bool.or_eq_true, Bool.and_eq_true, decide_eq_true_eq] at h₁ h₂ ⊢
    rcases h₁ with hlt₁ | ⟨heq₁, hr₁⟩
    · rcases h₂ with hlt₂ | ⟨heq₂, _⟩
      · exact Or.inl (lt_trans hlt₁ hlt₂)
      · exact Or.inl (heq₂ ▸ hlt₁)
    · rcases h₂ with hlt₂ | ⟨heq₂, hr₂⟩
      · exact Or.inl (heq₁ ▸ hlt₂)
      · exact Or.inr ⟨heq₁.trans heq₂, clLt_trans hr₁ hr₂⟩

lemma string_eq_of_data_eq {s t : String} (h : s.data = t.data) : s = t := by
  cases s; cases t; exact congrArg String.mk h

instance : IsTrans (String × String) edgeLe := by
  constructor
  intro a b c hab hbc
  rcases hab with h₁ | ⟨e₁, h₁'⟩
  · rcases hbc with h₂ | ⟨e₂, _⟩
    · exact Or.inl (clLt_trans h₁ h₂)
    · exact Or.inl (e₂ ▸ h₁)
  · rcases hbc with h₂ | ⟨e₂, h₂'⟩
    · exact Or.inl (e₁ ▸ h₂)
    · refine Or.inr ⟨e₁.trans e₂, ?_⟩
      rcases h₁' with h₁'' | h₁''
      · rcases h₂' with h₂'' | h₂''
        · exact Or.inl (clLt_trans h₁'' h₂'')
        · exact Or.inl (h₂'' ▸ h₁'')
      · rcases h₂' with h₂'' | h₂''
        · exact Or.inl (h₁'' ▸ h₂'')
        · exact Or.inr (h₁''.trans h₂'')

instance : IsAntisymm (String × String) edgeLe := by
  constructor
  intro a b hab hba
  rcases hab with h₁ | ⟨e₁, h₁'⟩
  · rcases hba with h₂ | ⟨e₂, _⟩
    · exact absurd h₂ (Bool.eq_false_iff.mp (clLt_asymm h₁))
    · exact absurd h₁ (by rw [e₂, clLt_irrefl]; simp)
  · rcases hba with h₂ | ⟨e₂, h₂'⟩
    · exact absurd h₂ (by rw [e₁, clLt_irrefl]; simp)
    · have hfst : a.1 = b.1 := e₁
      have hsnd : a.2 = b.2 := by
        rcases h₁' with h₁'' | h₁''
        · rcases h₂' with h₂'' | h₂''
          · exact absurd h₂'' (Bool.eq_false_iff.mp (clLt_asymm h₁''))
          · exact h₂''.symm
        · exact h₁''
      exact Prod.ext hfst hsnd

instance : IsTotal (String × String) edgeLe := by
  constructor
  intro a b
  cases h₁ : clLt a.1.data b.1.data
  · cases h₂ : clLt b.1.data a.1.data
    · have e₁ : a.1 = b.1 := string_eq_of_data_eq (clLt_conn h₁ h₂)
      cases h₃ : clLt a.2.data b.2.data
      · cases h₄ : clLt b.2.data a.2.data
        · exact Or.inl (Or.inr ⟨e₁, Or.inr (string_eq_of_data_eq (clLt_conn h₃ h₄))⟩)
        · exact Or.inr (Or.inr ⟨e₁.symm, Or.inl h₄⟩)
      · exact Or.inl (Or.inr ⟨e₁, Or.inl h₃⟩)
    · exact Or.inr (Or.inl h₂)
  · exact Or.inl (Or.inl h₁)

/-! Aggregation lemmas: the fused fold of lines 252-260 versus its
declarative descriptions, and its sign behaviour. -/

lemma foldr_max_max (a b : ℚ) (l : List ℚ) :
    l.foldr max (max a b) = max b (l.foldr max a) := by
  induction l with
  | nil => exact max_comm a b
  | cons c l ih => simp only [List.foldr_cons, ih, max_left_comm]

lemma foldl_aggStep_eq (u v : String) :
    ∀ (ps : List PathInfo) (a : ℚ),
      ps.foldl (aggStep u v) a =
        ((ps.filter (fun p => segMem (p.path.getD []) u v)).map
          (fun p => p.flow.getD 0)).foldr max a
  | [], a => rfl
  | p :: ps, a => by
    cases hc : segMem (p.path.getD []) u v
    · simp only [List.foldl_cons, aggStep, hc, if_neg Bool.false_ne_true,
        List.filter_cons, Bool.false_eq_true, if_false]
      exact foldl_aggStep_eq u v ps a
    · simp only [List.foldl_cons, aggStep, hc, if_pos rfl, List.filter_cons, if_true,
        List.map_cons, List.foldr_cons]
      rw [foldl_aggStep_eq u v ps (max a (p.flow.getD 0)), foldr_max_max]

lemma aggFlow_eq_aggFlowAll (paths : List PathInfo) (u v : String) :
    aggFlow paths u v = aggFlowAll paths u v :=
  foldl_aggStep_eq u v paths 0

lemma foldr_max_nonneg : ∀ l : List ℚ, 0 ≤ l.foldr max 0
  | [] => le_refl 0
  | c :: l => le_trans (foldr_max_nonneg l) (le_max_right c _)

lemma aggFlow_nonneg (paths : List PathInfo) (u v : String) :
    0 ≤ aggFlow paths u v := by
  rw [aggFlow_eq_aggFlowAll]
  exact foldr_max_nonneg _

lemma foldr_max_of_nonpos : ∀ l : List ℚ, (∀ x ∈ l, x ≤ 0) → l.foldr max 0 = 0
  | [], _ => rfl
  | c :: l, h => by
    simp only [List.foldr_cons, foldr_max_of_nonpos l (fun x hx => h x (List.mem_cons_of_mem c hx))]
    exact max_eq_right (h c (List.mem_cons_self c l))

lemma aggFlow_eq_zero_of_nonpos (paths : List PathInfo) (u v : String)
    (h : ∀ p ∈ paths, segMem (p.path.getD []) u v = true → p.flow.getD 0 ≤ 0) :
    aggFlow paths u v = 0 := by
  rw [aggFlow_eq_aggFlowAll, aggFlowAll]
  apply foldr_max_of_nonpos
  intro x hx
  obtain ⟨p, hp, rfl⟩ := List.mem_map.mp hx
  obtain ⟨hpm, hseg⟩ := List.mem_filter.mp hp
  exact h p hpm hseg

lemma aggStep_right_comm (u v : String) (z : ℚ) (p q : PathInfo) :
    aggStep u v (aggStep u v z p) q = aggStep u v (aggStep u v z q) p := by
  unfold aggStep
  cases hp : segMem (p.path.getD []) u v <;> cases hq : segMem (q.path.getD []) u v <;> simp
  rw [max_assoc, max_comm (p.flow.getD 0) (q.flow.getD 0), ← max_assoc]

lemma one_le_edgeWidth {f : ℚ} (h : 0 ≤ f) : 1 ≤ edgeWidth f := by
  unfold edgeWidth
  refine le_max_of_le_right ?_
  nlinarith

lemma edgeWidth_pos (f : ℚ) : 0 < edgeWidth f :=
  lt_of_lt_of_le (by norm_num) (le_max_left _ _)

lemma edgeWidth_zero : edgeWidth 0 = 1 := by
  unfold edgeWidth
  norm_num

/-! Structural lemmas about record validation and the sorted edge list. -/

lemma segMem_iff {ns : List String} {u v : String} :
    segMem ns u v = true ↔ (u, v) ∈ segments ns := by
  unfold segMem
  rw [List.any_eq_true]
  constructor
  · rintro ⟨⟨x, y⟩, hm, hxy⟩
    simp only [Bool.and_eq_true, beq_iff_eq] at hxy
    obtain ⟨rfl, rfl⟩ := hxy
    exact hm
  · intro hm
    exact ⟨(u, v), hm, by simp⟩

lemma processRecord_processed {G : Graph} {p : PathInfo} {segs : List (String × String)}
    {m : Nat} (h : processRecord G p = .processed segs m) :
    segs = (segments (p.path.getD [])).filter (fun e => G.hasEdge e.1 e.2) ∧
      m = ((segments (p.path.getD [])).filter (fun e => !(G.hasEdge e.1 e.2))).length := by
  unfold processRecord at h
  split_ifs at h
  split at h
  · exact absurd h (by simp)
  · obtain ⟨h₁, h₂⟩ := RecordOutcome.processed.inj h
    exact ⟨h₁.symm, h₂.symm⟩

lemma processRecord_of_valid {G : Graph} {p : PathInfo}
    (hne : p.path.getD [] ≠ []) (hfl : p.flow ≠ none)
    (hns : ∀ n ∈ p.path.getD [], G.hasNode n = true) :
    processRecord G p =
      .processed ((segments (p.path.getD [])).filter (fun e => G.hasEdge e.1 e.2))
        (((segments (p.path.getD [])).filter (fun e => !(G.hasEdge e.1 e.2))).length) := by
  unfold processRecord
  rw [if_neg (by simpa using hne), if_neg (by simpa using hfl)]
  have hfind : (p.path.getD []).find? (fun n => !(G.hasNode n)) = none := by
    rw [List.find?_eq_none]
    intro n hn
    simp [hns n hn]
  rw [hfind]

lemma recordValidEdges_of_valid {G : Graph} {p : PathInfo}
    (hne : p.path.getD [] ≠ []) (hfl : p.flow ≠ none)
    (hns : ∀ n ∈ p.path.getD [], G.hasNode n = true) :
    recordValidEdges G p =
      (segments (p.path.getD [])).filter (fun e => G.hasEdge e.1 e.2) := by
  unfold recordValidEdges
  rw [processRecord_of_valid hne hfl hns]

lemma recordDefects_of_valid {G : Graph} {p : PathInfo}
    (hne : p.path.getD [] ≠ []) (hfl : p.flow ≠ none)
    (hns : ∀ n ∈ p.path.getD [], G.hasNode n = true) :
    recordDefects G p =
      ((segments (p.path.getD [])).filter (fun e => !(G.hasEdge e.1 e.2))).length := by
  unfold recordDefects
  rw [processRecord_of_valid hne hfl hns]

lemma mem_recordValidEdges_hasEdge {G : Graph} {p : PathInfo} {e : String × String}
    (h : e ∈ recordValidEdges G p) : G.hasEdge e.1 e.2 = true := by
  unfold recordValidEdges at h
  rcases hp : processRecord G p with _ | _ | n | ⟨segs, m⟩ <;> rw [hp] at h <;>
    try exact absurd h (List.not_mem_nil e)
  obtain ⟨hsegs, -⟩ := processRecord_processed hp
  subst hsegs
  exact (List.mem_filter.mp h).2

lemma mem_recordValidEdges_segments {G : Graph} {p : PathInfo} {e : String × String}
    (h : e ∈ recordValidEdges G p) : e ∈ segments (p.path.getD []) := by
  unfold recordValidEdges at h
  rcases hp : processRecord G p with _ | _ | n | ⟨segs, m⟩ <;> rw [hp] at h <;>
    try exact absurd h (List.not_mem_nil e)
  obtain ⟨hsegs, -⟩ := processRecord_processed hp
  subst hsegs
  exact (List.mem_filter.mp h).1

lemma mem_sortedValidFlowEdges {G : Graph} {paths : List PathInfo} {e : String × String} :
    e ∈ sortedValidFlowEdges G paths ↔ ∃ p ∈ paths, e ∈ recordValidEdges G p := by
  unfold sortedValidFlowEdges
  rw [(List.perm_insertionSort edgeLe _).mem_iff, List.mem_dedup, List.mem_flatMap]

lemma nodup_sortedValidFlowEdges (G : Graph) (paths : List PathInfo) :
    (sortedValidFlowEdges G paths).Nodup :=
  ((List.perm_insertionSort edgeLe _).nodup_iff).mpr (List.nodup_dedup _)

lemma sorted_sortedValidFlowEdges (G : Graph) (paths : List PathInfo) :
    List.Sorted edgeLe (sortedValidFlowEdges G paths) :=
  List.sorted_insertionSort edgeLe _

/-! Lemmas about the whole `visualize_max_flow` call. -/

lemma visualize_max_flow_of_present {G : Graph} {src snk : String}
    (hs : G.hasNode src = true) (hk : G.hasNode snk = true) (paths : List PathInfo) :
    visualize_max_flow G paths src snk =
      { errorMsg := none
        degradedDrawn := false
        highlighted := (sortedValidFlowEdges G paths).map
          (fun e => (e, aggFlow paths e.1 e.2, edgeWidth (aggFlow paths e.1 e.2)))
        defects := totalDefects G paths } := by
  unfold visualize_max_flow
  rw [if_neg (by simp [hs]), if_neg (by simp [hk])]

lemma visualize_max_flow_of_absent {G : Graph} {src snk : String}
    (h : G.hasNode src = false ∨ G.hasNode snk = false) (paths : List PathInfo) :
    (visualize_max_flow G paths src snk).degradedDrawn = true ∧
      (visualize_max_flow G paths src snk).highlighted = [] ∧
      (visualize_max_flow G paths src snk).errorMsg.isSome = true ∧
      (visualize_max_flow G paths src snk).defects = 0 := by
  unfold visualize_max_flow
  rcases h with h | h
  · rw [if_pos h]
    exact ⟨rfl, rfl, rfl, rfl⟩
  · by_cases hs : G.hasNode src = false
    · rw [if_pos hs]
      exact ⟨rfl, rfl, rfl, rfl⟩
    · rw [if_neg hs, if_pos h]
      exact ⟨rfl, rfl, rfl, rfl⟩

lemma highlighted_map_fst {G : Graph} {src snk : String} {paths : List PathInfo}
    (hs : G.hasNode src = true) (hk : G.hasNode snk = true) :
    (visualize_max_flow G paths src snk).highlighted.map (fun t => t.1) =
      sortedValidFlowEdges G paths := by
  rw [visualize_max_flow_of_present hs hk]
  rw [List.map_map]
  exact List.map_id' _

lemma mem_highlighted_fst {G : Graph} {src snk : String} {paths : List PathInfo}
    {e : String × String}
    (h : e ∈ (visualize_max_flow G paths src snk).highlighted.map (fun t => t.1)) :
    e ∈ sortedValidFlowEdges G paths := by
  by_cases hs : G.hasNode src = true
  · by_cases hk : G.hasNode snk = true
    · rwa [highlighted_map_fst hs hk] at h
    · rw [((visualize_max_flow_of_absent (Or.inr (Bool.eq_false_iff.mpr hk)) paths).2.1 :
        (visualize_max_flow G paths src snk).highlighted = [])] at h
      exact absurd h (by simp)
  · rw [((visualize_max_flow_of_absent (Or.inl (Bool.eq_false_iff.mpr hs)) paths).2.1 :
      (visualize_max_flow G paths src snk).highlighted = [])] at h
    exact absurd h (by simp)

lemma filter_eq_singleton_of_nodup {α : Type} [DecidableEq α] :
    ∀ (l : List α), l.Nodup → ∀ e ∈ l, l.filter (fun x => decide (x = e)) = [e] := by
  intro l
  induction l with
  | nil => intro _ e he; exact absurd he (List.not_mem_nil e)
  | cons a l ih =>
    intro hnd e he
    obtain ⟨hna, hndl⟩ := List.nodup_cons.mp hnd
    rcases List.mem_cons.mp he with rfl | hel
    · rw [List.filter_cons, if_pos (by simp)]
      have : l.filter (fun x => decide (x = e)) = [] := by
        rw [List.filter_eq_nil_iff]
        intro x hx
        simp only [decide_eq_true_eq]
        intro hxe
        exact hna (hxe ▸ hx)
      rw [this]
    · rw [List.filter_cons, if_neg (by
        simp only [decide_eq_true_eq]
        intro hae
        exact hna (hae ▸ hel))]
      exact ih hndl e hel

lemma filter_map_triple (q w : (String × String) → ℚ) (e : String × String) :
    ∀ l : List (String × String),
      ((l.map (fun x => (x, q x, w x))).filter (fun t => decide (t.1 = e))) =
        (l.filter (fun x => decide (x = e))).map (fun x => (x, q x, w x))
  | [] => rfl
  | a :: l => by
    simp only [List.map_cons, List.filter_cons]
    cases hd : decide (a = e)
    · simp only [decide_eq_false_iff_not] at hd
      rw [if_neg (by simp [hd]), if_neg (by simp [hd])]
      exact filter_map_triple q w e l
    · simp only [decide_eq_true_eq] at hd
      rw [if_pos (by simp [hd]), if_pos (by simp [hd]), List.map_cons]
      rw [filter_map_triple q w e l]

/-! Concrete inputs used by the witnesses and counterexamples. -/

/-- Graph with nodes `A`, `B` and the single directed edge `(A, B)`. -/
def exGraphAB : Graph := ⟨["A", "B"], [(("A", "B"), 1)]⟩

/-- Graph with nodes `A`, `B`, `C` and the single directed edge `(A, B)`. -/
def exGraphABC : Graph := ⟨["A", "B", "C"], [(("A", "B"), 1)]⟩

/-- Record `{path: [A, B], flow: 0.3}`. -/
def exRec03 : PathInfo := ⟨some ["A", "B"], some (3 / 10)⟩

/-- Record `{path: [A, B], flow: 0.7}`. -/
def exRec07 : PathInfo := ⟨some ["A", "B"], some (7 / 10)⟩

/-- Record `{path: [A, B, C], flow: 0.9}`: invalid in `exGraphAB`
because `C` is not a node there, yet its node sequence traverses
`(A, B)`. -/
def exRecInvalid09 : PathInfo := ⟨some ["A", "B", "C"], some (9 / 10)⟩

/-- Record `{path: [A, X], flow: 1.0}` with `X` absent from both
example graphs. -/
def exRecMissingX : PathInfo := ⟨some ["A", "X"], some 1⟩

/-- Record with a node sequence but no flow value. -/
def exRecNoFlow : PathInfo := ⟨some ["A", "B"], none⟩

/-- Record `{path: [A, B], flow: 0}`: zero flow, which is valid. -/
def exRecZero : PathInfo := ⟨some ["A", "B"], some 0⟩

/-- Record `{path: [A, B, C], flow: 1.0}`: all nodes exist in
`exGraphABC` but the segment `(B, C)` is not an edge there. -/
def exRecABC : PathInfo := ⟨some ["A", "B", "C"], some 1⟩

/-- Record `{path: [A, B], flow: -1.0}`: a negative flow value. -/
def exRecNeg : PathInfo := ⟨some ["A", "B"], some (-1)⟩

/-! A refinement of `PathInfo` that tells a present-but-null field
apart from an absent key, and the aggregation loop of lines 252-264
with Python's run-time errors made explicit.  This is the part of the
program where `dict.get` with a default does NOT shield against
explicit `null` values, which decides claim C4. -/

/-- A field of a flow-path dictionary as it sits in the JSON input: the
key may be absent, present with an explicit `null`, or present with a
value.  The plain `get` reads of lines 205-206 cannot tell the first
two apart; the defaulted reads of lines 255-256 can. -/
inductive FieldVal (α : Type)
  | absent
  | null
  | val (a : α)
  deriving DecidableEq

/-- `path_info.get(key)` (lines 205-206): an absent key and an explicit
`null` both read as Python `None`. -/
def FieldVal.read {α : Type} : FieldVal α → Option α
  | .absent => none
  | .null => none
  | .val a => some a

/-- `path_info.get(key, default)` (lines 255-256): the default is used
only when the key is ABSENT; a present-but-null field still reads as
Python `None` (`none` here), which the surrounding loop then crashes
on. -/
def FieldVal.readD {α : Type} (f : FieldVal α) (d : α) : Option α :=
  match f with
  | .absent => some d
  | .null => none
  | .val a => some a

/-- A flow-path dictionary with absent and null fields told apart,
refining `PathInfo`. -/
structure PathDict where
  path : FieldVal (List String)
  flow : FieldVal ℚ

/-- The view of a record that the validation stage of lines 203-234
sees through its plain `get` reads. -/
def PathDict.toPathInfo (p : PathDict) : PathInfo :=
  ⟨p.path.read, p.flow.read⟩

/-- One iteration of the aggregation loop body (lines 254-260) for the
pair `(u, v)`, with Python's run-time errors made explicit: when the
`path` field is explicitly null, `p_nodes` is `None` and
`len(p_nodes)` at line 257 raises `TypeError`; when the node sequence
traverses `(u, v)` and the `flow` field is explicitly null, `p_flow`
is `None` and `max(max_flow_on_this_edge, p_flow)` at line 259 raises
`TypeError`. -/
def aggStepChecked (u v : String) (acc : ℚ) (p : PathDict) : Except String ℚ :=
  match p.path.readD [] with
  | none => .error "TypeError: object of type NoneType has no len"
  | some ns =>
    if segMem ns u v then
      match p.flow.readD 0 with
      | none => .error "TypeError: NoneType does not compare with float"
      | some q => .ok (max acc q)
    else .ok acc

/-- `max_flow_on_this_edge` for `(u, v)` (lines 253-260) with the first
`TypeError` Python would raise propagated. -/
def aggFlowChecked (paths : List PathDict) (u v : String) : Except String ℚ :=
  paths.foldlM (aggStepChecked u v) 0

/-- Lines 244-269 with the run-time errors surfaced: the highlighted
edges (validated through the plain-`get` view, exactly as in
`visualize_max_flow`) paired with aggregate and width, or the first
`TypeError` raised while computing them — an exception that leaves
`visualize_max_flow` before anything is drawn or saved. -/
def highlightedChecked (G : Graph) (paths : List PathDict) :
    Except String (List ((String × String) × ℚ × ℚ)) :=
  (sortedValidFlowEdges G (paths.map PathDict.toPathInfo)).mapM
    (fun e => do
      let q ← aggFlowChecked paths e.1 e.2
      pure (e, q, edgeWidth q))

/-- Record `{path: [A, B], flow: 0.5}` in the refined representation. -/
def exDict05 : PathDict := ⟨.val ["A", "B"], .val (1 / 2)⟩

/-- Record `{path: [A, B], flow: null}`: the `flow` key is present but
explicitly null. -/
def exDictNullFlow : PathDict := ⟨.val ["A", "B"], .null⟩

/-- Record `{path: [A, B]}` with no `flow` key at all. -/
def exDictNoFlow : PathDict := ⟨.val ["A", "B"], .absent⟩

/-! The claims. -/

/-- C1, counterexample to the claim as stated: in `exGraphAB` with
records `0.3:[A,B]`, `0.7:[A,B]` and the invalid `0.9:[A,B,C]`
(node `C` is not in the graph, so the third record does not validate),
the code attaches aggregated flow `0.9` to the highlighted edge
`(A, B)` — the aggregation loop of lines 254-260 ranges over all
original records — whereas the maximum over the validating paths
through `(A, B)` is `0.7`. -/
theorem claim_C1_counterexample :
    (visualize_max_flow exGraphAB [exRec03, exRec07, exRecInvalid09] "A" "B").highlighted.filter
        (fun t => decide (t.1 = ("A", "B"))) = [(("A", "B"), 9 / 10, 11 / 2)] ∧
    aggFlowClaimed exGraphAB [exRec03, exRec07, exRecInvalid09] "A" "B" = 7 / 10 ∧
    ((9 : ℚ) / 10 ≠ 7 / 10) := by
  refine ⟨?_, ?_, by norm_num⟩
  · norm_num [visualize_max_flow, sortedValidFlowEdges, recordValidEdges, processRecord,
      segments, segMem, aggFlow, aggStep, edgeWidth, exRec03, exRec07, exRecInvalid09,
      exGraphAB, Graph.hasNode, Graph.hasEdge, List.insertionSort, List.orderedInsert,
      totalDefects]
  · have h : aggFlowClaimed exGraphAB [exRec03, exRec07, exRecInvalid09] "A" "B" =
        max ((3 : ℚ) / 10) (max (7 / 10) 0) := rfl
    rw [h]
    norm_num

/-- C1 (amended): the aggregated flow attached to each highlighted edge
is the maximum, starting from 0, of the flow values (0 when the flow
entry is absent) of ALL records of the input list — validating or not —
whose node sequence traverses that edge; it is a pure max-reduce, never
a sum.  The highlighted entry for the edge is unique and also carries
the width computed from that aggregate. -/
theorem claim_C1 : ∀ (G : Graph) (paths : List PathInfo) (src snk u v : String),
    G.hasNode src = true → G.hasNode snk = true →
    (u, v) ∈ sortedValidFlowEdges G paths →
    (visualize_max_flow G paths src snk).highlighted.filter
        (fun t => decide (t.1 = (u, v))) =
      [((u, v), aggFlowAll paths u v, edgeWidth (aggFlowAll paths u v))] := by
  intro G paths src snk u v hs hk hmem
  rw [visualize_max_flow_of_present hs hk]
  show ((sortedValidFlowEdges G paths).map
      (fun e => (e, aggFlow paths e.1 e.2, edgeWidth (aggFlow paths e.1 e.2)))).filter
      (fun t => decide (t.1 = (u, v))) = _
  rw [filter_map_triple (fun e => aggFlow paths e.1 e.2)
      (fun e => edgeWidth (aggFlow paths e.1 e.2)) (u, v) (sortedValidFlowEdges G paths)]
  rw [filter_eq_singleton_of_nodup (sortedValidFlowEdges G paths)
      (nodup_sortedValidFlowEdges G paths) (u, v) hmem]
  rw [List.map_cons, List.map_nil]
  rw [show aggFlow paths (u, v).1 (u, v).2 = aggFlowAll paths u v from
    aggFlow_eq_aggFlowAll paths u v]

/-- C1 witness: the spec's own scenario, `0.3:[A,B]` and `0.7:[A,B]`
in `exGraphAB`. -/
theorem claim_C1_witness :
    (exGraphAB.hasNode "A" = true ∧ exGraphAB.hasNode "B" = true ∧
      ("A", "B") ∈ sortedValidFlowEdges exGraphAB [exRec03, exRec07]) ∧
    (visualize_max_flow exGraphAB [exRec03, exRec07] "A" "B").highlighted.filter
        (fun t => decide (t.1 = ("A", "B"))) =
      [(("A", "B"), aggFlowAll [exRec03, exRec07] "A" "B",
        edgeWidth (aggFlowAll [exRec03, exRec07] "A" "B"))] :=
  ⟨⟨by decide, by decide, by decide⟩,
    claim_C1 exGraphAB [exRec03, exRec07] "A" "B" "A" "B" (by decide) (by decide) (by decide)⟩

/-- C5, counterexample to the claim as stated: with source `S` absent
from `exGraphAB`, the function does NOT leave the degraded-render
decision to the caller — it draws and saves the unhighlighted graph
itself in its early-return branch (lines 153-159) and returns `None`
exactly as on the success path. -/
theorem claim_C5_counterexample :
    exGraphAB.hasNode "S" = false ∧
    (visualize_max_flow exGraphAB [] "S" "B").degradedDrawn = true := by
  decide

/-- C5 (amended): if the designated source or sink identifier is absent
from the graph, the function prints an `ERROR` diagnostic naming the
missing endpoint, itself draws and saves a degraded unhighlighted graph
(the caller is not given the degraded-render-or-abort decision, and the
Python return value is `None` just as on the success path), and no flow
highlighting is attempted (the highlighted edge list is empty and no
record is validated). -/
theorem claim_C5 : ∀ (G : Graph) (paths : List PathInfo) (src snk : String),
    G.hasNode src = false ∨ G.hasNode snk = false →
    (visualize_max_flow G paths src snk).errorMsg.isSome = true ∧
    (visualize_max_flow G paths src snk).degradedDrawn = true ∧
    (visualize_max_flow G paths src snk).highlighted = [] ∧
    (visualize_max_flow G paths src snk).defects = 0 := by
  intro G paths src snk h
  obtain ⟨h1, h2, h3, h4⟩ := visualize_max_flow_of_absent h paths
  exact ⟨h3, h1, h2, h4⟩

/-- C5 witness: missing source `S` in `exGraphAB`. -/
theorem claim_C5_witness :
    (exGraphAB.hasNode "S" = false ∨ exGraphAB.hasNode "B" = false) ∧
    ((visualize_max_flow exGraphAB [exRec03] "S" "B").errorMsg.isSome = true ∧
      (visualize_max_flow exGraphAB [exRec03] "S" "B").degradedDrawn = true ∧
      (visualize_max_flow exGraphAB [exRec03] "S" "B").highlighted = [] ∧
      (visualize_max_flow exGraphAB [exRec03] "S" "B").defects = 0) :=
  ⟨Or.inl (by decide), claim_C5 exGraphAB [exRec03] "S" "B" (Or.inl (by decide))⟩

/-- C9 (confirmed): every highlighted edge produced by the pipeline is
an actual directed edge of the graph — a pair is only ever added to
`valid_flow_edges` under a `G.has_edge(u, v)` check (line 230). -/
theorem claim_C9 : ∀ (G : Graph) (paths : List PathInfo) (src snk u v : String),
    (u, v) ∈ (visualize_max_flow G paths src snk).highlighted.map (fun t => t.1) →
    G.hasEdge u v = true := by
  intro G paths src snk u v h
  obtain ⟨p, _, hmem⟩ := mem_sortedValidFlowEdges.mp (mem_highlighted_fst h)
  exact mem_recordValidEdges_hasEdge hmem

/-- C9 witness: the edge `(A, B)` highlighted from record `0.3:[A,B]`. -/
theorem claim_C9_witness :
    ("A", "B") ∈ (visualize_max_flow exGraphAB [exRec03] "A" "B").highlighted.map
        (fun t => t.1) ∧
    exGraphAB.hasEdge "A" "B" = true :=
  ⟨by decide, claim_C9 exGraphAB [exRec03] "A" "B" "A" "B" (by decide)⟩

/-- C8 (confirmed): every highlighted flow edge is drawn with width
`max(0.5, 1.0 + 5.0 * aggregatedFlow)` (line 264); an aggregated flow
of zero yields width `1.0`, and the width is always positive, so a
zero-flow highlighted edge is distinguishable from an edge that is not
drawn at all. -/
theorem claim_C8 : ∀ (G : Graph) (paths : List PathInfo) (src snk u v : String),
    G.hasNode src = true → G.hasNode snk = true →
    (u, v) ∈ sortedValidFlowEdges G paths →
    ((u, v), aggFlow paths u v, max ((1 : ℚ) / 2) (1 + 5 * aggFlow paths u v)) ∈
        (visualize_max_flow G paths src snk).highlighted ∧
    (aggFlow paths u v = 0 → max ((1 : ℚ) / 2) (1 + 5 * aggFlow paths u v) = 1) ∧
    (0 : ℚ) < max ((1 : ℚ) / 2) (1 + 5 * aggFlow paths u v) := by
  intro G paths src snk u v hs hk hmem
  refine ⟨?_, ?_, lt_of_lt_of_le (by norm_num) (le_max_left _ _)⟩
  · rw [visualize_max_flow_of_present hs hk]
    have h := List.mem_map_of_mem
      (fun e => (e, aggFlow paths e.1 e.2, edgeWidth (aggFlow paths e.1 e.2))) hmem
    simpa [edgeWidth] using h
  · intro h0
    rw [h0]
    norm_num

/-- C8 witness: zero-flow record `0:[A,B]` in `exGraphAB`. -/
theorem claim_C8_witness :
    (exGraphAB.hasNode "A" = true ∧ exGraphAB.hasNode "B" = true ∧
      ("A", "B") ∈ sortedValidFlowEdges exGraphAB [exRecZero]) ∧
    ((("A", "B"), aggFlow [exRecZero] "A" "B",
        max ((1 : ℚ) / 2) (1 + 5 * aggFlow [exRecZero] "A" "B")) ∈
        (visualize_max_flow exGraphAB [exRecZero] "A" "B").highlighted ∧
      (aggFlow [exRecZero] "A" "B" = 0 →
        max ((1 : ℚ) / 2) (1 + 5 * aggFlow [exRecZero] "A" "B") = 1) ∧
      (0 : ℚ) < max ((1 : ℚ) / 2) (1 + 5 * aggFlow [exRecZero] "A" "B")) :=
  ⟨⟨by decide, by decide, by decide⟩,
    claim_C8 exGraphAB [exRecZero] "A" "B" "A" "B" (by decide) (by decide) (by decide)⟩

/-- C10 (confirmed): the aggregated flow of every highlighted edge is
at least 0 (the max-reduce of lines 253-260 starts at `0.0`, so
negative flows are silently clamped: if every record traversing the
edge carries a non-positive flow the aggregate is exactly 0), and
consequently the drawn width of every highlighted edge is at least
`1.0`. -/
theorem claim_C10 : ∀ (G : Graph) (paths : List PathInfo) (src snk u v : String),
    G.hasNode src = true → G.hasNode snk = true →
    (u, v) ∈ sortedValidFlowEdges G paths →
    0 ≤ aggFlow paths u v ∧
    ((∀ p ∈ paths, segMem (p.path.getD []) u v = true → p.flow.getD 0 ≤ 0) →
      aggFlow paths u v = 0) ∧
    1 ≤ edgeWidth (aggFlow paths u v) ∧
    ((u, v), aggFlow paths u v, edgeWidth (aggFlow paths u v)) ∈
      (visualize_max_flow G paths src snk).highlighted := by
  intro G paths src snk u v hs hk hmem
  refine ⟨aggFlow_nonneg paths u v, aggFlow_eq_zero_of_nonpos paths u v,
    one_le_edgeWidth (aggFlow_nonneg paths u v), ?_⟩
  rw [visualize_max_flow_of_present hs hk]
  exact List.mem_map_of_mem _ hmem

/-- C10 witness: the negative-flow record `-1:[A,B]` in `exGraphAB`;
the inner implication is applied to show the aggregate is clamped to 0. -/
theorem claim_C10_witness :
    (exGraphAB.hasNode "A" = true ∧ exGraphAB.hasNode "B" = true ∧
      ("A", "B") ∈ sortedValidFlowEdges exGraphAB [exRecNeg]) ∧
    0 ≤ aggFlow [exRecNeg] "A" "B" ∧
    aggFlow [exRecNeg] "A" "B" = 0 ∧
    1 ≤ edgeWidth (aggFlow [exRecNeg] "A" "B") :=
  ⟨⟨by decide, by decide, by decide⟩,
    (claim_C10 exGraphAB [exRecNeg] "A" "B" "A" "B" (by decide) (by decide) (by decide)).1,
    (claim_C10 exGraphAB [exRecNeg] "A" "B" "A" "B" (by decide) (by decide) (by decide)).2.1
      (fun p hp _ => by
        rcases List.mem_singleton.mp hp with rfl
        simp [exRecNeg]),
    (claim_C10 exGraphAB [exRecNeg] "A" "B" "A" "B" (by decide) (by decide) (by decide)).2.2.1⟩

/-- C6 (confirmed): validation and aggregation are order-independent —
any permutation of the record list gives the identical outcome
(highlighted edges, aggregated flows, widths, defect count) — and the
highlighted edges are listed in deterministic lexicographic order on
the `(from, to)` pair (the `sorted` call of line 247). -/
theorem claim_C6 : ∀ (G : Graph) (src snk : String) (paths1 paths2 : List PathInfo),
    List.Perm paths1 paths2 →
    visualize_max_flow G paths1 src snk = visualize_max_flow G paths2 src snk ∧
    List.Sorted edgeLe
      ((visualize_max_flow G paths1 src snk).highlighted.map (fun t => t.1)) := by
  intro G src snk paths1 paths2 hperm
  have hedges : sortedValidFlowEdges G paths1 = sortedValidFlowEdges G paths2 := by
    unfold sortedValidFlowEdges
    refine List.eq_of_perm_of_sorted ?_
      (List.sorted_insertionSort edgeLe _) (List.sorted_insertionSort edgeLe _)
    exact (List.perm_insertionSort edgeLe _).trans
      (((hperm.flatMap_right (recordValidEdges G)).dedup).trans
        (List.perm_insertionSort edgeLe _).symm)
  have hagg : ∀ u v, aggFlow paths1 u v = aggFlow paths2 u v := fun u v =>
    hperm.foldl_eq' (fun x _ y _ z => aggStep_right_comm u v z x y) 0
  have hdef : totalDefects G paths1 = totalDefects G paths2 :=
    (hperm.map (recordDefects G)).sum_eq
  have hfun : (fun e : String × String =>
        (e, aggFlow paths1 e.1 e.2, edgeWidth (aggFlow paths1 e.1 e.2))) =
      (fun e : String × String =>
        (e, aggFlow paths2 e.1 e.2, edgeWidth (aggFlow paths2 e.1 e.2))) := by
    funext e
    rw [hagg]
  constructor
  · cases hs : G.hasNode src
    · simp [visualize_max_flow, hs]
    · cases hk : G.hasNode snk
      · simp [visualize_max_flow, hs, hk]
      · rw [visualize_max_flow_of_present hs hk paths1,
          visualize_max_flow_of_present hs hk paths2, hedges, hdef, hfun]
  · cases hs : G.hasNode src
    · rw [(visualize_max_flow_of_absent (Or.inl hs) paths1).2.1]
      exact List.sorted_nil
    · cases hk : G.hasNode snk
      · rw [(visualize_max_flow_of_absent (Or.inr hk) paths1).2.1]
        exact List.sorted_nil
      · rw [highlighted_map_fst hs hk]
        exact sorted_sortedValidFlowEdges G paths1

/-- C6 witness: swapping the two records `0.3:[A,B]` and `0.7:[A,B]`. -/
theorem claim_C6_witness :
    List.Perm [exRec03, exRec07] [exRec07, exRec03] ∧
    visualize_max_flow exGraphAB [exRec03, exRec07] "A" "B" =
      visualize_max_flow exGraphAB [exRec07, exRec03] "A" "B" ∧
    List.Sorted edgeLe
      ((visualize_max_flow exGraphAB [exRec03, exRec07] "A" "B").highlighted.map
        (fun t => t.1)) :=
  ⟨List.Perm.swap exRec07 exRec03 [],
    (claim_C6 exGraphAB "A" "B" [exRec03, exRec07] [exRec07, exRec03]
      (List.Perm.swap exRec07 exRec03 [])).1,
    (claim_C6 exGraphAB "A" "B" [exRec03, exRec07] [exRec07, exRec03]
      (List.Perm.swap exRec07 exRec03 [])).2⟩

/-- C2 (confirmed): for a single record whose nodes all exist in the
graph, exactly the consecutive pairs that are edges of the graph are
highlighted, each pair that is not an edge contributes exactly one
defect (lines 227-234), and every highlighted entry still carries the
record's aggregated flow. -/
theorem claim_C2 : ∀ (G : Graph) (p : PathInfo) (src snk : String),
    G.hasNode src = true → G.hasNode snk = true →
    p.path.getD [] ≠ [] → p.flow ≠ none →
    (∀ n ∈ p.path.getD [], G.hasNode n = true) →
    (∀ u v : String,
      (u, v) ∈ (visualize_max_flow G [p] src snk).highlighted.map (fun t => t.1) ↔
        ((u, v) ∈ segments (p.path.getD []) ∧ G.hasEdge u v = true)) ∧
    (visualize_max_flow G [p] src snk).defects =
      ((segments (p.path.getD [])).filter (fun e => !(G.hasEdge e.1 e.2))).length ∧
    (∀ t ∈ (visualize_max_flow G [p] src snk).highlighted,
      t.2.1 = max 0 (p.flow.getD 0)) := by
  intro G p src snk hs hk hne hfl hns
  have hrve := recordValidEdges_of_valid hne hfl hns
  refine ⟨?_, ?_, ?_⟩
  · intro u v
    rw [highlighted_map_fst hs hk, mem_sortedValidFlowEdges]
    constructor
    · rintro ⟨q, hq, hmem⟩
      rcases List.mem_singleton.mp hq with rfl
      rw [hrve] at hmem
      obtain ⟨h1, h2⟩ := List.mem_filter.mp hmem
      exact ⟨h1, h2⟩
    · rintro ⟨h1, h2⟩
      exact ⟨p, List.mem_singleton.mpr rfl, by rw [hrve]; exact List.mem_filter.mpr ⟨h1, h2⟩⟩
  · rw [visualize_max_flow_of_present hs hk]
    show totalDefects G [p] = _
    unfold totalDefects
    rw [List.map_cons, List.map_nil, List.sum_cons, List.sum_nil, Nat.add_zero]
    exact recordDefects_of_valid hne hfl hns
  · intro t ht
    rw [visualize_max_flow_of_present hs hk] at ht
    obtain ⟨e, he, rfl⟩ := List.mem_map.mp ht
    show aggFlow [p] e.1 e.2 = max 0 (p.flow.getD 0)
    have hseg : segMem (p.path.getD []) e.1 e.2 = true := by
      apply segMem_iff.mpr
      obtain ⟨q, hq, hmem⟩ := mem_sortedValidFlowEdges.mp he
      rcases List.mem_singleton.mp hq with rfl
      exact mem_recordValidEdges_segments hmem
    show List.foldl (aggStep e.1 e.2) 0 [p] = _
    simp [aggStep, hseg]

/-- C2 witness: record `1:[A,B,C]` in `exGraphABC`, where `(A, B)` is
an edge and `(B, C)` is not: `(A, B)` is highlighted, `(B, C)` is not,
and exactly one defect is counted. -/
theorem claim_C2_witness :
    (exGraphABC.hasNode "A" = true ∧ exGraphABC.hasNode "C" = true ∧
      exRecABC.path.getD [] ≠ [] ∧ exRecABC.flow ≠ none ∧
      (∀ n ∈ exRecABC.path.getD [], exGraphABC.hasNode n = true)) ∧
    (("A", "B") ∈ (visualize_max_flow exGraphABC [exRecABC] "A" "C").highlighted.map
        (fun t => t.1) ↔
      (("A", "B") ∈ segments (exRecABC.path.getD []) ∧
        exGraphABC.hasEdge "A" "B" = true)) ∧
    (("B", "C") ∈ (visualize_max_flow exGraphABC [exRecABC] "A" "C").highlighted.map
        (fun t => t.1) ↔
      (("B", "C") ∈ segments (exRecABC.path.getD []) ∧
        exGraphABC.hasEdge "B" "C" = true)) ∧
    (visualize_max_flow exGraphABC [exRecABC] "A" "C").defects =
      ((segments (exRecABC.path.getD [])).filter
        (fun e => !(exGraphABC.hasEdge e.1 e.2))).length :=
  ⟨⟨by decide, by decide, by decide, by decide, by decide⟩,
    (claim_C2 exGraphABC exRecABC "A" "C" (by decide) (by decide) (by decide) (by decide)
      (by decide)).1 "A" "B",
    (claim_C2 exGraphABC exRecABC "A" "C" (by decide) (by decide) (by decide) (by decide)
      (by decide)).1 "B" "C",
    (claim_C2 exGraphABC exRecABC "A" "C" (by decide) (by decide) (by decide) (by decide)
      (by decide)).2.1⟩

/-- C3 (confirmed): a record containing any node absent from the graph
is discarded whole (lines 217-225): it contributes no highlighted
segments — even ones whose endpoints form a graph edge — and exactly
one defect; for the single record `{path:[A,X], flow:1}` the pipeline
yields zero highlighted edges and one defect. -/
theorem claim_C3 : ∀ (G : Graph) (p : PathInfo),
    (∃ n ∈ p.path.getD [], G.hasNode n = false) →
    recordValidEdges G p = [] ∧ recordDefects G p = 1 ∧
    (∀ src snk : String, (visualize_max_flow G [p] src snk).highlighted = []) ∧
    (∀ src snk : String, G.hasNode src = true → G.hasNode snk = true →
      (visualize_max_flow G [p] src snk).defects = 1) := by
  intro G p h
  obtain ⟨n, hn, hfalse⟩ := h
  have hnotproc : ∀ segs m, processRecord G p ≠ .processed segs m := by
    intro segs m hc
    unfold processRecord at hc
    by_cases h1 : (p.path.getD []).isEmpty
    · rw [if_pos h1] at hc
      exact RecordOutcome.noConfusion hc
    · rw [if_neg h1] at hc
      by_cases h2 : p.flow.isNone
      · rw [if_pos h2] at hc
        exact RecordOutcome.noConfusion hc
      · rw [if_neg h2] at hc
        rcases hfind : (p.path.getD []).find? (fun x => !(G.hasNode x)) with _ | x
        · rw [List.find?_eq_none] at hfind
          have := hfind n hn
          simp [hfalse] at this
        · rw [hfind] at hc
          exact RecordOutcome.noConfusion hc
  have h1 : recordValidEdges G p = [] := by
    unfold recordValidEdges
    rcases hout : processRecord G p with _ | _ | x | ⟨segs, m⟩
    · rfl
    · rfl
    · rfl
    · exact absurd hout (hnotproc segs m)
  have h2 : recordDefects G p = 1 := by
    unfold recordDefects
    rcases hout : processRecord G p with _ | _ | x | ⟨segs, m⟩
    · rfl
    · rfl
    · rfl
    · exact absurd hout (hnotproc segs m)
  have hsv : sortedValidFlowEdges G [p] = [] := by
    unfold sortedValidFlowEdges
    rw [show ([p].flatMap (recordValidEdges G)) = [] from by simp [h1]]
    rfl
  refine ⟨h1, h2, ?_, ?_⟩
  · intro src snk
    by_cases hs : G.hasNode src = true
    · by_cases hk : G.hasNode snk = true
      · rw [visualize_max_flow_of_present hs hk]
        show List.map _ (sortedValidFlowEdges G [p]) = []
        rw [hsv]
        rfl
      · exact (visualize_max_flow_of_absent (Or.inr (Bool.eq_false_iff.mpr hk)) [p]).2.1
    · exact (visualize_max_flow_of_absent (Or.inl (Bool.eq_false_iff.mpr hs)) [p]).2.1
  · intro src snk hs hk
    rw [visualize_max_flow_of_present hs hk]
    show totalDefects G [p] = 1
    simp [totalDefects, h2]

/-- C3 witness: the spec's scenario `{path:[A,X], flow:1}` in
`exGraphAB`. -/
theorem claim_C3_witness :
    (∃ n ∈ exRecMissingX.path.getD [], exGraphAB.hasNode n = false) ∧
    recordValidEdges exGraphAB exRecMissingX = [] ∧
    recordDefects exGraphAB exRecMissingX = 1 ∧
    (visualize_max_flow exGraphAB [exRecMissingX] "A" "B").highlighted = [] ∧
    (visualize_max_flow exGraphAB [exRecMissingX] "A" "B").defects = 1 :=
  ⟨by decide,
    (claim_C3 exGraphAB exRecMissingX (by decide)).1,
    (claim_C3 exGraphAB exRecMissingX (by decide)).2.1,
    (claim_C3 exGraphAB exRecMissingX (by decide)).2.2.1 "A" "B",
    (claim_C3 exGraphAB exRecMissingX (by decide)).2.2.2 "A" "B" (by decide) (by decide)⟩

/-- C4: the claim states the code's evident intent (spec sections 4.1
and 7: defects accumulate, no exception aborts processing — and the
defaulted reads `get('path', [])` and `get('flow', 0.0)` at lines
255-256 exist precisely to keep the aggregation loop from crashing on
malformed records), but the code is a slip: those defaults apply only
to ABSENT keys.  On the failing input
`[{path:[A,B], flow:0.5}, {path:[A,B], flow:null}]` over a graph with
edge `(A, B)`, validation skips the null-flow record with one defect
and highlights `(A, B)`, and the aggregation loop then raises
`TypeError` at line 259 (`max(0.5, None)`), aborting the whole
visualization — so a record in the claim's own scope ("holding a null
flow") does abort processing.  With the `flow` key absent instead of
null the very same loop succeeds, showing the guard works exactly
where the author aimed it. -/
theorem claim_C4 :
    highlightedChecked exGraphAB [exDict05, exDictNullFlow] =
      .error "TypeError: NoneType does not compare with float" ∧
    totalDefects exGraphAB ([exDict05, exDictNullFlow].map PathDict.toPathInfo) = 1 ∧
    sortedValidFlowEdges exGraphAB ([exDict05, exDictNullFlow].map PathDict.toPathInfo) =
      [("A", "B")] ∧
    highlightedChecked exGraphAB [exDict05, exDictNoFlow] =
      .ok [(("A", "B"), 1 / 2, 7 / 2)] := by
  refine ⟨rfl, by decide, by decide, ?_⟩
  have h : highlightedChecked exGraphAB [exDict05, exDictNoFlow] =
      .ok [(("A", "B"), max (max 0 (1 / 2)) 0, edgeWidth (max (max 0 (1 / 2)) 0))] := rfl
  rw [h]
  norm_num [edgeWidth]

/-- C7 (confirmed): a record is rejected by the presence checks of
lines 208-215 — before any validation against the graph — exactly when
its node sequence is empty or absent or its flow value is absent; a
record with flow present and equal to zero passes those checks and is
validated and processed like any other. -/
theorem claim_C7 : ∀ (G : Graph) (p : PathInfo),
    ((processRecord G p).isEarlySkip = true ↔
      (p.path.getD [] = [] ∨ p.flow = none)) ∧
    (p.flow = some 0 → p.path.getD [] ≠ [] →
      (processRecord G p).isEarlySkip = false ∧
      ((∀ n ∈ p.path.getD [], G.hasNode n = true) →
        recordValidEdges G p =
          (segments (p.path.getD [])).filter (fun e => G.hasEdge e.1 e.2))) := by
  intro G p
  constructor
  · constructor
    · intro h
      unfold processRecord at h
      split_ifs at h with h1 h2
      · exact Or.inl (List.isEmpty_iff.mp h1)
      · exact Or.inr (Option.isNone_iff_eq_none.mp h2)
      · rcases hfind : (p.path.getD []).find? (fun x => !(G.hasNode x)) with _ | x
        · rw [hfind] at h
          exact absurd h (by simp [RecordOutcome.isEarlySkip])
        · rw [hfind] at h
          exact absurd h (by simp [RecordOutcome.isEarlySkip])
    · intro h
      unfold processRecord
      rcases h with h | h
      · rw [if_pos (by simp [h])]
        rfl
      · by_cases h1 : (p.path.getD []).isEmpty
        · rw [if_pos h1]
          rfl
        · rw [if_neg h1, if_pos (by simp [h])]
          rfl
  · intro hfl hne
    constructor
    · unfold processRecord
      rw [if_neg (by simpa using hne), if_neg (by simp [hfl])]
      rcases hfind : (p.path.getD []).find? (fun x => !(G.hasNode x)) with _ | x <;> rfl
    · intro hns
      exact recordValidEdges_of_valid hne (by simp [hfl]) hns

/-- C7 witness: the zero-flow record `0:[A,B]` is not skipped by the
presence checks and its valid segments are kept. -/
theorem claim_C7_witness :
    exRecZero.flow = some 0 ∧
    ((processRecord exGraphAB exRecZero).isEarlySkip = true ↔
      (exRecZero.path.getD [] = [] ∨ exRecZero.flow = none)) ∧
    (processRecord exGraphAB exRecZero).isEarlySkip = false ∧
    recordValidEdges exGraphAB exRecZero =
      (segments (exRecZero.path.getD [])).filter
        (fun e => exGraphAB.hasEdge e.1 e.2) :=
  ⟨rfl,
    (claim_C7 exGraphAB exRecZero).1,
    ((claim_C7 exGraphAB exRecZero).2 rfl (by decide)).1,
    ((claim_C7 exGraphAB exRecZero).2 rfl (by decide)).2 (by decide)⟩

end Visualize
